import Mathlib

/-!
Verification of the FPCA subsystem of `skfda`
(`src/skfda/preprocessing/dim_reduction/projection/_fpca.py`).

The numerical code is embedded shallowly over `ℚ`:

* the grid penalty-matrix builder (`_auxiliary_penalty_matrix`,
  `regularization_penalty_matrix`) is translated exactly, with the
  rectangular numpy arrays of shrinking row count represented as `P × P`
  matrices padded with zero rows/columns (the padding rows do not
  contribute to any `Dᵀ * D` product, so all entries agree with the
  numpy computation as long as the operator order stays below the point
  count);
* the two estimator classes `FPCABasis` and `FPCAGrid` become structures
  whose mutable attributes are threaded explicitly: `fit`/`transform`
  take the model (and the input data object, which the source mutates in
  place when centering) and return the updated values, or an error value
  mirroring the `raise` statements of the source;
* collaborators that live outside the analysed source file — the basis
  Gram/inner-product/penalty contract, scikit-learn's `PCA`, and the
  dense linear-algebra primitives (`cholesky`, `solve_triangular`,
  `solve`, elementwise `sqrt`) — are fields of an `Ops` record, since
  the spec treats them as external interfaces.
-/

open Matrix

/-! ## Grid penalty matrix builder -/

/-- Spacing `Δ` of the sample points: `gridDelta P pts k = pts (k+1) - pts k`
(the `np.diff` of the points), and `0` out of range. -/
def gridDelta (P : ℕ) (pts : Fin P → ℚ) (k : ℕ) : ℚ :=
  if h : k + 1 < P then pts ⟨k + 1, h⟩ - pts ⟨k, by omega⟩ else 0

/-- `np.mean(1 / np.diff(sample_points))` from `_auxiliary_penalty_matrix`. -/
def meanRecipDelta (P : ℕ) (pts : Fin P → ℚ) : ℚ :=
  (∑ k ∈ Finset.range (P - 1), 1 / gridDelta P pts k) / ((P - 1 : ℕ) : ℚ)

/-- The row weights `hh = -(1 / np.mean(1 / diff)) / diff` of
`_auxiliary_penalty_matrix`. -/
def gridHH (P : ℕ) (pts : Fin P → ℚ) (k : ℕ) : ℚ :=
  -(1 / meanRecipDelta P pts) / gridDelta P pts k

/-- `_auxiliary_penalty_matrix(sample_points)`: the spacing-scaled
first-difference operator.  The source builds a `(P-1) × P` array with
`hh k` at `(k, k)` and `-hh k` at `(k, k+1)`; here it is padded to
`P × P` with a zero last row. -/
def auxiliary_penalty_matrix (P : ℕ) (pts : Fin P → ℚ) : Matrix (Fin P) (Fin P) ℚ :=
  Matrix.of fun r c =>
    if (r : ℕ) + 1 < P then
      if (c : ℕ) = (r : ℕ) then gridHH P pts r
      else if (c : ℕ) = (r : ℕ) + 1 then -gridHH P pts r
      else 0
    else 0

/-- The numpy slice `M[:rows, :cols]` in the zero-padded representation:
entries outside the kept block are zeroed. -/
def truncPad (P : ℕ) (rows cols : ℕ) (M : Matrix (Fin P) (Fin P) ℚ) :
    Matrix (Fin P) (Fin P) ℚ :=
  Matrix.of fun r c => if (r : ℕ) < rows ∧ (c : ℕ) < cols then M r c else 0

/-- The chained difference operators of `regularization_penalty_matrix`:
`Dchain P pts (i-1)` is the discrete `i`-th derivative operator `D^i`,
obtained by multiplying the sliced auxiliary matrix
`aux[:(P-i), :(P-i+1)]` onto the previous operator, exactly as in the
loop of the source. -/
def Dchain (P : ℕ) (pts : Fin P → ℚ) : ℕ → Matrix (Fin P) (Fin P) ℚ
  | 0 => auxiliary_penalty_matrix P pts
  | n + 1 =>
      truncPad P (P - (n + 2)) (P - (n + 2) + 1) (auxiliary_penalty_matrix P pts) *
        Dchain P pts n

/-- The loop body of `regularization_penalty_matrix`: iterates over the
coefficients `penalty[1:]` carrying the loop index `i`, the current
chained operator `aux_penalty_1` and the accumulated penalty matrix.
At each step, for `i > 1`, the operator is advanced by the sliced
auxiliary matrix, and `penalty[i] * auxᵀ * aux` is added. -/
def penaltyLoopAux (P : ℕ) (pts : Fin P → ℚ) :
    List ℚ → ℕ → Matrix (Fin P) (Fin P) ℚ → Matrix (Fin P) (Fin P) ℚ →
      Matrix (Fin P) (Fin P) ℚ
  | [], _, _, pm => pm
  | c :: rest, i, a, pm =>
      let a2 :=
        if 1 < i then
          truncPad P (P - i) (P - i + 1) (auxiliary_penalty_matrix P pts) * a
        else a
      penaltyLoopAux P pts rest (i + 1) a2 (pm + c • (a2ᵀ * a2))

/-- `regularization_penalty_matrix(sample_points, penalty)` translated from
the source: a zero matrix unless `np.sum(penalty) != 0`, in which case
`penalty[0] * I` plus the chained-difference contributions accumulated by
the loop. -/
def regularization_penalty_matrix (P : ℕ) (pts : Fin P → ℚ) (penalty : List ℚ) :
    Matrix (Fin P) (Fin P) ℚ :=
  if penalty.sum ≠ 0 then
    match penalty with
    | [] => 0
    | c0 :: rest =>
        penaltyLoopAux P pts rest 1 (auxiliary_penalty_matrix P pts)
          (c0 • (1 : Matrix (Fin P) (Fin P) ℚ))
  else 0

/-- The penalty matrix the spec sentence describes (claim C1), written from
the spec's words: `c₀ • I + ∑_{i ≥ 1} cᵢ • (Dⁱ)ᵀ * Dⁱ` with `Dⁱ` the
`i`-fold chained spacing-scaled first-difference operator, and with no
guard on the sum of the coefficients. -/
def claimedPenaltyMatrix (P : ℕ) (pts : Fin P → ℚ) (penalty : List ℚ) :
    Matrix (Fin P) (Fin P) ℚ :=
  penalty.headI • (1 : Matrix (Fin P) (Fin P) ℚ) +
    ∑ i ∈ Finset.range (penalty.length - 1),
      penalty.getD (i + 1) 0 • ((Dchain P pts i)ᵀ * Dchain P pts i)

lemma penaltyLoopAux_eq (P : ℕ) (pts : Fin P → ℚ) (rest : List ℚ) :
    ∀ (n : ℕ) (pm : Matrix (Fin P) (Fin P) ℚ),
      penaltyLoopAux P pts rest (n + 2) (Dchain P pts n) pm =
        pm + ∑ j ∈ Finset.range rest.length,
          rest.getD j 0 • ((Dchain P pts (n + 1 + j))ᵀ * Dchain P pts (n + 1 + j)) := by
  induction rest with
  | nil => intro n pm; simp [penaltyLoopAux]
  | cons c rest ih =>
      intro n pm
      have hstep : penaltyLoopAux P pts (c :: rest) (n + 2) (Dchain P pts n) pm =
          penaltyLoopAux P pts rest (n + 3) (Dchain P pts (n + 1))
            (pm + c • ((Dchain P pts (n + 1))ᵀ * Dchain P pts (n + 1))) := by
        simp only [penaltyLoopAux]
        rw [if_pos (by omega)]
        rfl
      rw [hstep]
      have ih2 := ih (n + 1) (pm + c • ((Dchain P pts (n + 1))ᵀ * Dchain P pts (n + 1)))
      rw [ih2]
      rw [List.length_cons, Finset.sum_range_succ'
        (fun j => (c :: rest).getD j 0 • ((Dchain P pts (n + 1 + j))ᵀ * Dchain P pts (n + 1 + j)))
        rest.length]
      simp only [List.getD_cons_succ, List.getD_cons_zero]
      rw [add_assoc]
      congr 1
      rw [add_comm]
      congr 1
      apply Finset.sum_congr rfl
      intro j _
      have hidx : n + 1 + 1 + j = n + 1 + (j + 1) := by omega
      rw [hidx]

lemma reg_penalty_eq_claimed (P : ℕ) (pts : Fin P → ℚ) (penalty : List ℚ)
    (hsum : penalty.sum ≠ 0) :
    regularization_penalty_matrix P pts penalty = claimedPenaltyMatrix P pts penalty := by
  cases penalty with
  | nil => simp at hsum
  | cons c0 rest =>
    cases rest with
    | nil =>
        unfold regularization_penalty_matrix claimedPenaltyMatrix
        rw [if_pos hsum]
        simp [penaltyLoopAux]
    | cons c1 rest2 =>
        unfold regularization_penalty_matrix claimedPenaltyMatrix
        rw [if_pos hsum]
        show penaltyLoopAux P pts (c1 :: rest2) 1 (auxiliary_penalty_matrix P pts)
            (c0 • (1 : Matrix (Fin P) (Fin P) ℚ)) = _
        have hstep : penaltyLoopAux P pts (c1 :: rest2) 1 (auxiliary_penalty_matrix P pts)
            (c0 • (1 : Matrix (Fin P) (Fin P) ℚ)) =
            penaltyLoopAux P pts rest2 2 (Dchain P pts 0)
              (c0 • (1 : Matrix (Fin P) (Fin P) ℚ) +
                c1 • ((Dchain P pts 0)ᵀ * Dchain P pts 0)) := by
          simp only [penaltyLoopAux]
          rw [if_neg (by omega)]
          rfl
        rw [hstep, penaltyLoopAux_eq P pts rest2 0]
        simp only [List.length_cons, Nat.add_sub_cancel, List.headI, List.getD_cons_succ,
          (by intro j; omega : ∀ j : ℕ, 0 + 1 + j = j + 1)]
        rw [Finset.sum_range_succ'
          (fun i => (c1 :: rest2).getD i 0 • ((Dchain P pts i)ᵀ * Dchain P pts i))
          rest2.length]
        simp only [List.getD_cons_succ, List.getD_cons_zero]
        rw [add_assoc]
        congr 1
        rw [add_comm]

/-- Claim C1 (amended): for a strictly increasing grid of `P ≥ 2` points and a
coefficient sequence `c` of order at most `P - 1`, `regularization_penalty_matrix`
returns `c₀ • I + ∑_{i ≥ 1} cᵢ • (Dⁱ)ᵀ * Dⁱ` when the coefficients have nonzero
sum, and the zero matrix whenever the coefficients sum to `0` — in particular
(but not only) when all coefficients are `0`. -/
theorem c1_regularization_penalty_matrix_amended
    (P : ℕ) (pts : Fin P → ℚ) (penalty : List ℚ)
    (hP : 2 ≤ P) (hmono : StrictMono pts) (hlen : penalty.length ≤ P) :
    (penalty.sum ≠ 0 →
        regularization_penalty_matrix P pts penalty = claimedPenaltyMatrix P pts penalty) ∧
      (penalty.sum = 0 → regularization_penalty_matrix P pts penalty = 0) ∧
      ((∀ c ∈ penalty, c = 0) → regularization_penalty_matrix P pts penalty = 0) := by
  refine ⟨fun hsum => reg_penalty_eq_claimed P pts penalty hsum, fun hsum => ?_, fun hall => ?_⟩
  · unfold regularization_penalty_matrix
    rw [if_neg (by simp [hsum])]
  · unfold regularization_penalty_matrix
    rw [if_neg (by simp [List.sum_eq_zero hall])]

/-- The two-point grid `[0, 1]` used in the examples of the source file. -/
def pts01 : Fin 2 → ℚ := ![0, 1]

lemma Dchain0_pts01 : Dchain 2 pts01 0 = Matrix.of ![![(-1 : ℚ), 1], ![0, 0]] := by
  ext i j
  fin_cases i <;> fin_cases j <;>
    simp [Dchain, auxiliary_penalty_matrix, gridHH, gridDelta, meanRecipDelta, pts01,
      Finset.sum_range_one]

lemma penaltySq_pts01 :
    (Dchain 2 pts01 0)ᵀ * Dchain 2 pts01 0 = Matrix.of ![![(1 : ℚ), -1], ![-1, 1]] := by
  rw [Dchain0_pts01]
  ext i j
  fin_cases i <;> fin_cases j <;>
    simp [Matrix.mul_apply, Fin.sum_univ_two]

lemma claimed_pts01 :
    claimedPenaltyMatrix 2 pts01 [1, -1] = Matrix.of ![![(0 : ℚ), 1], ![1, 0]] := by
  unfold claimedPenaltyMatrix
  have h1 : ([1, -1] : List ℚ).length - 1 = 1 := by simp
  rw [h1, Finset.sum_range_one]
  simp only [List.headI, List.getD_cons_succ, List.getD_cons_zero]
  rw [penaltySq_pts01]
  ext i j
  fin_cases i <;> fin_cases j <;>
    simp [Matrix.one_apply]

lemma reg_pts01_zero : regularization_penalty_matrix 2 pts01 [1, -1] = 0 := by
  unfold regularization_penalty_matrix
  rw [if_neg (by norm_num)]

/-- Claim C1 counterexample: on the grid `[0, 1]` with coefficients `(1, -1)`
(nonzero coefficients summing to `0`), the source returns the zero matrix while
the claimed formula `c₀ • I + c₁ • Dᵀ * D` gives `[[0, 1], [1, 0]]`; so the
formula fails and the zero matrix is returned for a sequence that is not
identically zero. -/
theorem c1_counterexample :
    regularization_penalty_matrix 2 pts01 [1, -1] = 0 ∧
      claimedPenaltyMatrix 2 pts01 [1, -1] = Matrix.of ![![0, 1], ![1, 0]] ∧
      regularization_penalty_matrix 2 pts01 [1, -1] ≠ claimedPenaltyMatrix 2 pts01 [1, -1] ∧
      ¬ (∀ c ∈ ([1, -1] : List ℚ), c = 0) := by
  refine ⟨reg_pts01_zero, claimed_pts01, ?_, by decide⟩
  rw [reg_pts01_zero, claimed_pts01]
  decide

/-- Claim C1 witness: the amended theorem applied on the grid `[0, 1]` with the
order-one operator coefficients `(0, 1)`. -/
theorem c1_witness :
    regularization_penalty_matrix 2 pts01 [0, 1] = claimedPenaltyMatrix 2 pts01 [0, 1] :=
  (c1_regularization_penalty_matrix_amended 2 pts01 [0, 1] (by norm_num) (by decide)
    (by norm_num)).1 (by norm_num)

/-! ## Data model

`FDataBasis`, `FDataGrid` and the `Basis` contract live outside the analysed
source file; their fields and the operations the FPCA code needs from them
(`mean`, `copy`, `inner_product`, `gram_matrix`, `penalty`) are modelled from
the spec's data-model and collaborator contracts.  Matrices of the estimators
are total functions `ℕ → ℕ → ℚ` with the dimensions carried alongside. -/

/-- Modelled from the spec: the `Basis` contract of the source — a basis has a
dimension `n_basis` and a `domain_range`; `kind` is an abstract identity
distinguishing different basis families (monomial, B-spline, ...).  Named
`BasisObj` because Mathlib already takes the name `Basis`. -/
structure BasisObj where
  kind : ℕ
  n_basis : ℕ
  domain_range : ℚ × ℚ
deriving DecidableEq

/-- Modelled from the spec: a functional data object in basis form — a
coefficient matrix of shape `(n_samples, basis.n_basis)` over a `Basis`. -/
structure FDataBasis where
  n_samples : ℕ
  basis : BasisObj
  coefficients : ℕ → ℕ → ℚ

/-- Modelled from the spec: a functional data object in grid form — a data
matrix of shape `(n_samples, n_points)` (the trailing singleton axis of the
source's 3-D array is dropped, as `fit` itself immediately reshapes it away)
together with the ordered sample points. -/
structure FDataGrid where
  n_samples : ℕ
  n_points : ℕ
  sample_points : List ℚ
  data_matrix : ℕ → ℕ → ℚ

/-- The Python value held by the `penalty` attribute: an integer order (the
default is `2`) or an explicit coefficient sequence. -/
inductive PenaltySpec where
  | int (k : ℕ)
  | arr (l : List ℚ)

/-- The result of scikit-learn's `PCA.fit`: principal directions, singular
values and explained variance ratios. -/
structure PCAOutput where
  components_ : ℕ → ℕ → ℚ
  singular_values_ : List ℚ
  explained_variance_ratio_ : List ℚ

/-- Modelled from the spec: the external collaborators of the FPCA code — the
basis Gram/inner-product/penalty provider, the dense linear-algebra layer
(Cholesky, triangular solves, general solves, elementwise square root) and the
multivariate PCA primitive.  Each field takes the relevant dimension(s)
explicitly since the matrices are unbounded functions. -/
structure Ops where
  gram : BasisObj → (ℕ → ℕ → ℚ)
  inner : BasisObj → BasisObj → (ℕ → ℕ → ℚ)
  basisPenalty : BasisObj → PenaltySpec → (ℕ → ℕ → ℚ)
  cholesky : ℕ → (ℕ → ℕ → ℚ) → (ℕ → ℕ → ℚ)
  solveTriLower : ℕ → (ℕ → ℕ → ℚ) → (ℕ → ℕ → ℚ) → (ℕ → ℕ → ℚ)
  solveTriUpper : ℕ → (ℕ → ℕ → ℚ) → (ℕ → ℕ → ℚ) → (ℕ → ℕ → ℚ)
  linSolve : ℕ → (ℕ → ℕ → ℚ) → (ℕ → ℕ → ℚ) → (ℕ → ℕ → ℚ)
  sqrtQ : ℚ → ℚ
  pca : ℕ → ℕ → ℕ → (ℕ → ℕ → ℚ) → PCAOutput

/-- Transpose of an unbounded function matrix. -/
def transF (A : ℕ → ℕ → ℚ) : ℕ → ℕ → ℚ := fun i j => A j i

/-- Modelled from the spec: `FDataBasis.mean()` — the coefficient vector of
the sample mean function, the column means of the coefficient matrix. -/
def basisMean (X : FDataBasis) (j : ℕ) : ℚ :=
  (∑ i ∈ Finset.range X.n_samples, X.coefficients i j) / (X.n_samples : ℚ)

/-- Modelled from the spec: `FDataGrid.mean()` — the pointwise mean of the
data matrix over the samples. -/
def gridMean (X : FDataGrid) (j : ℕ) : ℚ :=
  (∑ i ∈ Finset.range X.n_samples, X.data_matrix i j) / (X.n_samples : ℚ)

/-- The error outcomes of `fit`/`transform`, named after the spec's error
taxonomy; the source realises the first two as `AttributeError` with distinct
messages, the third as numpy's `ValueError` for an ambiguous array truth
value, and the last as the `AttributeError` of touching a missing fitted
attribute.  `invalidWeight` is the spec's `InvalidWeightError`; no code path
produces it. -/
inductive FPCAError where
  | insufficientSamples
  | tooManyComponents
  | ambiguousTruthValue
  | invalidWeight
  | notFitted
deriving DecidableEq

/-- The Python value held by `FPCAGrid.weights`: `None`, a numpy array, a
plain list, or a callable (evaluated at the sample points; it may return a
plain vector or an `FDataGrid`). -/
inductive Weights where
  | none
  | npArray (l : List ℚ)
  | pyList (l : List ℚ)
  | fn (f : List ℚ → List ℚ ⊕ FDataGrid)

/-- `np.squeeze` of the data matrix of an `FDataGrid` holding one sample of a
1-D weight function: its first row, as a vector of length `n_points`. -/
def squeezeGrid (g : FDataGrid) : List ℚ :=
  (List.range g.n_points).map fun j => g.data_matrix 0 j

/-- The Python truth-value test `not self.weights` (negated here, so `true`
means `self.weights` is truthy): `None` and empty containers are falsy, a
one-element numpy array has the truth value of its entry, a numpy array with
more than one element raises `ValueError`, and callables are truthy. -/
def weightsTruthy : Weights → Except FPCAError Bool
  | Weights.none => .ok false
  | Weights.npArray l =>
      if 1 < l.length then .error .ambiguousTruthValue
      else .ok (match l with | [] => false | x :: _ => decide (x ≠ 0))
  | Weights.pyList l => .ok (decide (l ≠ []))
  | Weights.fn _ => .ok true

/-- The composite-trapezoidal weight vector of `FPCAGrid.fit`:
`differences = np.diff(sample_points)` padded with a leading and trailing `0`,
then `(differences[:-1] + differences[1:]) / 2`. -/
def trapezoidWeights (pts : List ℚ) : List ℚ :=
  let differences := (0 : ℚ) :: List.zipWith (fun a b => a - b) pts.tail pts ++ [(0 : ℚ)]
  List.zipWith (fun a b => (a + b) / 2) differences.dropLast differences.tail

/-- The weight-resolution block of `FPCAGrid.fit` (lines 465–480): on a falsy
`self.weights` the trapezoidal weights are computed and stored back into
`self.weights`; a truthy callable is evaluated at the sample points (with an
`FDataGrid` result squeezed to a vector); a truthy array or list is used as
is.  Returns the resolved weight vector together with the value left in
`self.weights`. -/
def resolveWeights (w : Weights) (pts : List ℚ) :
    Except FPCAError (List ℚ × Weights) :=
  match weightsTruthy w with
  | .error e => .error e
  | .ok false => .ok (trapezoidWeights pts, Weights.npArray (trapezoidWeights pts))
  | .ok true =>
      match w with
      | Weights.fn f =>
          match f pts with
          | Sum.inl l => .ok (l, Weights.npArray l)
          | Sum.inr g => .ok (squeezeGrid g, Weights.npArray (squeezeGrid g))
      | Weights.npArray l => .ok (l, Weights.npArray l)
      | Weights.pyList l => .ok (l, Weights.pyList l)
      | Weights.none => .ok (trapezoidWeights pts, Weights.npArray (trapezoidWeights pts))

/-! ## The estimators

The mutable attributes of the Python objects are structure fields; the fitted
attributes are `Option`-valued (absent before a successful `fit`).  `fit` and
`transform` thread the model (and `fit` also the input object, which the
source centers in place) through explicitly: a returned error corresponds to
the `raise` in the source, in which case no updated state exists. -/

/-- The `FPCABasis` estimator class: configuration attributes as passed to
`__init__`, plus the attributes written by `fit`. -/
structure FPCABasis where
  n_components : ℕ
  centering : Bool
  regularization_parameter : ℚ
  penalty : PenaltySpec
  components_basis : Option BasisObj
  components_ : Option FDataBasis
  component_values_ : Option (List ℚ)
  explained_variance_ratio_ : Option (List ℚ)

/-- The `FPCAGrid` estimator class: configuration attributes as passed to
`__init__`, plus the attributes written by `fit`. -/
structure FPCAGrid where
  n_components : ℕ
  centering : Bool
  regularization_parameter : ℚ
  penalty : PenaltySpec
  weights : Weights
  components_ : Option FDataGrid
  component_values_ : Option (List ℚ)
  explained_variance_ratio_ : Option (List ℚ)

/-- The straight-line part of `FPCABasis.fit` after the two precondition
checks (source lines 184–253): centering (an in-place mutation of
`X.coefficients`, modelled by returning the updated `X`), resolution of the
target basis (copying the input's basis, or overwriting the supplied basis
object's `domain_range`), symmetrisation and optional regularization of the
Gram matrix, Cholesky/triangular-solve whitening, the PCA call, and the
un-whitening of the principal directions. -/
def FPCABasis.fitBody (ops : Ops) (m : FPCABasis) (X : FDataBasis) :
    FPCABasis × FDataBasis :=
  let X1 := if m.centering then
      { X with coefficients := fun i j => X.coefficients i j - basisMean X j }
    else X
  let resolved : BasisObj × (ℕ → ℕ → ℚ) × (ℕ → ℕ → ℚ) :=
    match m.components_basis with
    | Option.some b =>
        let b2 := { b with domain_range := X.basis.domain_range }
        (b2, ops.gram b2, ops.inner X.basis b2)
    | Option.none =>
        let b2 := X.basis
        let g := ops.gram b2
        (b2, g, g)
  let cb := resolved.1
  let g0 := resolved.2.1
  let jm := resolved.2.2
  let nb := match m.components_basis with
    | Option.some b => b.n_basis
    | Option.none => X.basis.n_basis
  let g1 : ℕ → ℕ → ℚ := fun i j => (g0 i j + g0 j i) / 2
  let g2 := if 0 < m.regularization_parameter then
      (fun i j => g1 i j + m.regularization_parameter * ops.basisPenalty cb m.penalty i j)
    else g1
  let lm := ops.cholesky nb g2
  let linvjt := ops.solveTriLower nb lm (transF jm)
  let finalM : ℕ → ℕ → ℚ := fun i j =>
    (∑ t ∈ Finset.range X.basis.n_basis, X1.coefficients i t * transF linvjt t j) /
      ops.sqrtQ (X.n_samples : ℚ)
  let pr := ops.pca m.n_components X.n_samples nb finalM
  let cc := transF (ops.solveTriUpper nb (transF lm) (transF pr.components_))
  let comps : FDataBasis := { n_samples := m.n_components, basis := cb, coefficients := cc }
  let m2 : FPCABasis := { m with
      components_basis := Option.some cb,
      components_ := Option.some comps,
      component_values_ := Option.some (pr.singular_values_.map (fun s => s ^ 2)),
      explained_variance_ratio_ := Option.some pr.explained_variance_ratio_ }
  (m2, X1)

/-- `FPCABasis.fit` (source lines 143–253).  The two `raise AttributeError`
preconditions come first — before centering, basis resolution, penalty
construction or any linear algebra — so on an error no state is produced and
both the model attributes and the caller's `X` are untouched. -/
def FPCABasis.fit (ops : Ops) (m : FPCABasis) (X : FDataBasis) :
    Except FPCAError (FPCABasis × FDataBasis) :=
  let nb := match m.components_basis with
    | Option.some b => b.n_basis
    | Option.none => X.basis.n_basis
  if m.n_components > X.n_samples then .error .insufficientSamples
  else if m.n_components > nb then .error .tooManyComponents
  else .ok (FPCABasis.fitBody ops m X)

/-- `FPCABasis.transform` (source lines 255–271): the inner products of the
samples with the stored components, via the cross-basis inner-product
collaborator (`X.inner_product(self.components_)`, modelled from the spec's
§4.6).  Reading `self.components_` before a successful `fit` is the
`AttributeError` modelled as `notFitted`.  The model is returned unchanged:
the source assigns no attribute here. -/
def FPCABasis.transform (ops : Ops) (m : FPCABasis) (X : FDataBasis) :
    Except FPCAError ((ℕ → ℕ → ℚ) × FPCABasis) :=
  match m.components_ with
  | Option.none => .error .notFitted
  | Option.some c =>
      .ok (fun i j =>
        ∑ s ∈ Finset.range X.basis.n_basis, ∑ t ∈ Finset.range c.basis.n_basis,
          X.coefficients i s * ops.inner X.basis c.basis s t * c.coefficients j t, m)

/-- The straight-line part of `FPCAGrid.fit` after the precondition checks and
the weight resolution (source lines 450–510): centering through the reshaped
view of `X.data_matrix` (modelled by returning the updated `X`), the optional
conversion of an integer `self.penalty` into a coefficient array and the
regularized solve against `I + λ·Π`, the weighting by the elementwise square
root of `diag(weights)`, the PCA call, and the un-weighting solve.  `wp` is
the pair returned by `resolveWeights`: the resolved vector and the value left
in `self.weights`. -/
def FPCAGrid.fitBody (ops : Ops) (m : FPCAGrid) (X : FDataGrid)
    (wp : List ℚ × Weights) : FPCAGrid × FDataGrid :=
  let P := X.n_points
  let ns := X.n_samples
  let fd1 := if m.centering then
      (fun i j => X.data_matrix i j - gridMean X j)
    else X.data_matrix
  let w := wp.1
  let penaltyArr := match m.penalty with
    | PenaltySpec.int k => List.replicate k 0 ++ [1]
    | PenaltySpec.arr l => l
  let fd2 := if 0 < m.regularization_parameter then
      let Plen := X.sample_points.length
      let pen := regularization_penalty_matrix Plen
        (fun i => X.sample_points.getD i 0) penaltyArr
      let penF : ℕ → ℕ → ℚ := fun i j =>
        if h : i < Plen ∧ j < Plen then pen ⟨i, h.1⟩ ⟨j, h.2⟩ else 0
      let aux : ℕ → ℕ → ℚ := fun i j =>
        (if i = j ∧ i < P then 1 else 0) + m.regularization_parameter * penF i j
      transF (ops.linSolve P (transF aux) (transF fd1))
    else fd1
  let sqrtW : ℕ → ℕ → ℚ := fun i j =>
    ops.sqrtQ (if i = j ∧ i < w.length then w.getD i 0 else 0)
  let finalM : ℕ → ℕ → ℚ := fun i j =>
    (∑ t ∈ Finset.range P, fd2 i t * sqrtW t j) / ops.sqrtQ (ns : ℚ)
  let pr := ops.pca m.n_components ns P finalM
  let compData := transF (ops.linSolve P sqrtW (transF pr.components_))
  let comps : FDataGrid :=
    { n_samples := m.n_components
      n_points := P
      sample_points := X.sample_points
      data_matrix := compData }
  let m2 : FPCAGrid := { m with
      weights := wp.2,
      penalty := if 0 < m.regularization_parameter then PenaltySpec.arr penaltyArr
        else m.penalty,
      components_ := Option.some comps,
      component_values_ := Option.some (pr.singular_values_.map (fun s => s ^ 2)),
      explained_variance_ratio_ := Option.some pr.explained_variance_ratio_ }
  (m2, { X with data_matrix := fd1 })

/-- `FPCAGrid.fit` (source lines 409–510).  The two `raise AttributeError`
preconditions come first; then the weight resolution, whose `ValueError` on an
ambiguous numpy truth value aborts the fit.  (In the source the in-place
centering of `X` happens just before the weight test; an aborted fit therefore
leaves `X` centered, a state this `Except`-based embedding does not carry.) -/
def FPCAGrid.fit (ops : Ops) (m : FPCAGrid) (X : FDataGrid) :
    Except FPCAError (FPCAGrid × FDataGrid) :=
  if m.n_components > X.n_samples then .error .insufficientSamples
  else if m.n_components > X.n_points then .error .tooManyComponents
  else match resolveWeights m.weights X.sample_points with
    | .error e => .error e
    | .ok wp => .ok (FPCAGrid.fitBody ops m X wp)

/-- `FPCAGrid.transform` (source lines 512–532): wraps in a fresh `FDataGrid`
the product of the flattened data matrix with the transpose of the flattened
component-value matrix.  The constructed `FDataGrid` gets numpy's default
sample points `0, 1, …` (the source passes none); the model is returned
unchanged: the source assigns no attribute here. -/
def FPCAGrid.transform (m : FPCAGrid) (X : FDataGrid) :
    Except FPCAError (FDataGrid × FPCAGrid) :=
  match m.components_ with
  | Option.none => .error .notFitted
  | Option.some c =>
      .ok
        ({ n_samples := X.n_samples
           n_points := c.n_samples
           sample_points := (List.range c.n_samples).map (fun k => (k : ℚ))
           data_matrix := fun i j =>
             ∑ t ∈ Finset.range X.n_points, X.data_matrix i t * c.data_matrix j t },
         m)

/-! ## The spec's contract for the multivariate PCA collaborator -/

/-- Modelled from the spec: the multivariate-PCA primitive returns *ranked*
directions — for a request of `k` components, `singular_values_` has length
`k`, is sorted in descending order and is nonnegative (scikit-learn's
documented behaviour). -/
def PCAContract (ops : Ops) : Prop :=
  ∀ (k ns nf : ℕ) (M : ℕ → ℕ → ℚ),
    (ops.pca k ns nf M).singular_values_.length = k ∧
      (ops.pca k ns nf M).singular_values_.Sorted (· ≥ ·) ∧
      ∀ s ∈ (ops.pca k ns nf M).singular_values_, 0 ≤ s

lemma sorted_desc_map_sq {l : List ℚ} (hs : l.Sorted (· ≥ ·)) (hn : ∀ s ∈ l, 0 ≤ s) :
    (l.map (fun s => s ^ 2)).Sorted (· ≥ ·) := by
  rw [List.Sorted, List.pairwise_map]
  refine hs.imp_of_mem ?_
  intro a b ha hb hab
  exact pow_le_pow_left₀ (hn b hb) hab 2

/-! ## Concrete instances used by the witnesses

`demoOps` realises the external collaborators in the simplest contract-abiding
way (solves returned unchanged, a PCA output of zero directions with zero
singular values); the data objects are the `[[1, 0], [0, 2]]` example on the
two-point grid `[0, 1]` from the source's doctests. -/

def demoOps : Ops :=
  { gram := fun _ _ _ => 0
    inner := fun _ _ _ _ => 0
    basisPenalty := fun _ _ _ _ => 0
    cholesky := fun _ A => A
    solveTriLower := fun _ _ B => B
    solveTriUpper := fun _ _ B => B
    linSolve := fun _ _ B => B
    sqrtQ := fun q => q
    pca := fun k _ _ _ =>
      { components_ := fun _ _ => 0
        singular_values_ := List.replicate k 0
        explained_variance_ratio_ := [] } }

lemma demoOps_contract : PCAContract demoOps := by
  intro k ns nf M
  refine ⟨List.length_replicate k 0, ?_, ?_⟩
  · rw [List.Sorted]
    exact List.pairwise_replicate.mpr (Or.inr (le_refl 0))
  · intro s hs
    rw [List.eq_of_mem_replicate hs]

def demoBasis : BasisObj := { kind := 0, n_basis := 2, domain_range := (0, 1) }

def demoBasis2 : BasisObj := { kind := 1, n_basis := 2, domain_range := (0, 2) }

def xDemoB : FDataBasis :=
  { n_samples := 2
    basis := demoBasis
    coefficients := fun i j =>
      if i = 0 then (if j = 0 then 1 else 0) else (if j = 0 then 0 else 2) }

def xDemoB2 : FDataBasis := { xDemoB with basis := demoBasis2 }

def mDemoB : FPCABasis :=
  { n_components := 2
    centering := true
    regularization_parameter := 0
    penalty := PenaltySpec.int 2
    components_basis := Option.none
    components_ := Option.none
    component_values_ := Option.none
    explained_variance_ratio_ := Option.none }

def xDemoG : FDataGrid :=
  { n_samples := 2
    n_points := 2
    sample_points := [0, 1]
    data_matrix := fun i j =>
      if i = 0 then (if j = 0 then 1 else 0) else (if j = 0 then 0 else 2) }

def mDemoG : FPCAGrid :=
  { n_components := 2
    centering := true
    regularization_parameter := 0
    penalty := PenaltySpec.int 2
    weights := Weights.none
    components_ := Option.none
    component_values_ := Option.none
    explained_variance_ratio_ := Option.none }

/-- The result of the demo basis fit (the fallback branch is unreachable:
the fit succeeds). -/
def demoPairB : FPCABasis × FDataBasis :=
  match FPCABasis.fit demoOps mDemoB xDemoB with
  | .ok p => p
  | .error _ => (mDemoB, xDemoB)

/-- A second fit of the same (already fitted) model on data over a different
basis. -/
def demoPairB2 : FPCABasis × FDataBasis :=
  match FPCABasis.fit demoOps demoPairB.1 xDemoB2 with
  | .ok p => p
  | .error _ => (mDemoB, xDemoB2)

/-- The result of the demo grid fit (the fallback branch is unreachable:
the fit succeeds). -/
def demoPairG : FPCAGrid × FDataGrid :=
  match FPCAGrid.fit demoOps mDemoG xDemoG with
  | .ok p => p
  | .error _ => (mDemoG, xDemoG)

/-! ## Shape lemmas about successful fits -/

lemma fitB_ok (ops : Ops) (m : FPCABasis) (X : FDataBasis)
    (r : FPCABasis × FDataBasis) (h : FPCABasis.fit ops m X = .ok r) :
    r = FPCABasis.fitBody ops m X ∧ m.n_components ≤ X.n_samples := by
  simp only [FPCABasis.fit] at h
  split_ifs at h with h1 h2
  exact ⟨(Except.ok.inj h).symm, by omega⟩

lemma fitG_ok (ops : Ops) (m : FPCAGrid) (X : FDataGrid)
    (r : FPCAGrid × FDataGrid) (h : FPCAGrid.fit ops m X = .ok r) :
    ∃ wp, resolveWeights m.weights X.sample_points = .ok wp ∧
      r = FPCAGrid.fitBody ops m X wp ∧
      m.n_components ≤ X.n_samples ∧ m.n_components ≤ X.n_points := by
  simp only [FPCAGrid.fit] at h
  split_ifs at h with h1 h2
  rcases hrw : resolveWeights m.weights X.sample_points with e | wp
  · rw [hrw] at h; simp at h
  · rw [hrw] at h
    simp only [Except.ok.injEq] at h
    exact ⟨wp, rfl, h.symm, by omega, by omega⟩

lemma fitBodyB_snd (ops : Ops) (m : FPCABasis) (X : FDataBasis) :
    (FPCABasis.fitBody ops m X).2 =
      if m.centering then
        { X with coefficients := fun i j => X.coefficients i j - basisMean X j }
      else X := rfl

lemma fitBodyG_snd (ops : Ops) (m : FPCAGrid) (X : FDataGrid) (wp : List ℚ × Weights) :
    (FPCAGrid.fitBody ops m X wp).2 =
      { X with data_matrix :=
          if m.centering then (fun i j => X.data_matrix i j - gridMean X j)
          else X.data_matrix } := rfl

lemma fitBodyB_component_values (ops : Ops) (m : FPCABasis) (X : FDataBasis) :
    ∃ ns nf M, (FPCABasis.fitBody ops m X).1.component_values_ =
      Option.some ((ops.pca m.n_components ns nf M).singular_values_.map
        (fun s => s ^ 2)) :=
  ⟨_, _, _, rfl⟩

lemma fitBodyG_component_values (ops : Ops) (m : FPCAGrid) (X : FDataGrid)
    (wp : List ℚ × Weights) :
    ∃ ns nf M, (FPCAGrid.fitBody ops m X wp).1.component_values_ =
      Option.some ((ops.pca m.n_components ns nf M).singular_values_.map
        (fun s => s ^ 2)) :=
  ⟨_, _, _, rfl⟩

/-! ## Claim C3 -/

/-- Claim C3: with `n_components > N`, both `FPCABasis.fit` and `FPCAGrid.fit`
return exactly the insufficient-samples error — the first check of each `fit`,
performed before centering, basis/weight resolution, penalty construction or
any linear algebra; no other error is possible and no updated model or input
state is produced (the error value carries none). -/
theorem c3_insufficient_samples_first
    (opsB opsG : Ops) (mB : FPCABasis) (XB : FDataBasis)
    (mG : FPCAGrid) (XG : FDataGrid)
    (hB : mB.n_components > XB.n_samples) (hG : mG.n_components > XG.n_samples) :
    FPCABasis.fit opsB mB XB = .error .insufficientSamples ∧
      FPCAGrid.fit opsG mG XG = .error .insufficientSamples := by
  constructor
  · simp only [FPCABasis.fit]
    rw [if_pos hB]
  · simp only [FPCAGrid.fit]
    rw [if_pos hG]

def mDemoB3 : FPCABasis := { mDemoB with n_components := 3 }

def mDemoG3 : FPCAGrid := { mDemoG with n_components := 3 }

/-- Claim C3 witness: three components requested on the two-sample demo
data. -/
theorem c3_witness :
    FPCABasis.fit demoOps mDemoB3 xDemoB = .error .insufficientSamples ∧
      FPCAGrid.fit demoOps mDemoG3 xDemoG = .error .insufficientSamples :=
  c3_insufficient_samples_first demoOps demoOps mDemoB3 xDemoB mDemoG3 xDemoG
    (by decide) (by decide)

/-! ## Claim C4 -/

/-- Claim C4: on every successful fit, `component_values_` is exactly the
elementwise squares of the singular values returned by the PCA step (invoked
with `n_components` requested components), sorted descending and of length
`n_components` — for both estimators, under the spec's contract for the PCA
collaborator. -/
theorem c4_component_values_squared_sorted
    (ops : Ops) (mB : FPCABasis) (XB : FDataBasis) (rB : FPCABasis × FDataBasis)
    (mG : FPCAGrid) (XG : FDataGrid) (rG : FPCAGrid × FDataGrid)
    (hpca : PCAContract ops)
    (hB : FPCABasis.fit ops mB XB = .ok rB)
    (hG : FPCAGrid.fit ops mG XG = .ok rG) :
    (∃ ns nf M,
      rB.1.component_values_ =
        Option.some ((ops.pca mB.n_components ns nf M).singular_values_.map
          (fun s => s ^ 2)) ∧
      ((ops.pca mB.n_components ns nf M).singular_values_.map
        (fun s => s ^ 2)).Sorted (· ≥ ·) ∧
      ((ops.pca mB.n_components ns nf M).singular_values_.map
        (fun s => s ^ 2)).length = mB.n_components) ∧
    (∃ ns nf M,
      rG.1.component_values_ =
        Option.some ((ops.pca mG.n_components ns nf M).singular_values_.map
          (fun s => s ^ 2)) ∧
      ((ops.pca mG.n_components ns nf M).singular_values_.map
        (fun s => s ^ 2)).Sorted (· ≥ ·) ∧
      ((ops.pca mG.n_components ns nf M).singular_values_.map
        (fun s => s ^ 2)).length = mG.n_components) := by
  constructor
  · obtain ⟨hbody, -⟩ := fitB_ok ops mB XB rB hB
    obtain ⟨ns, nf, M, hcv⟩ := fitBodyB_component_values ops mB XB
    refine ⟨ns, nf, M, ?_, ?_, ?_⟩
    · rw [hbody]; exact hcv
    · exact sorted_desc_map_sq (hpca mB.n_components ns nf M).2.1
        (hpca mB.n_components ns nf M).2.2
    · rw [List.length_map]; exact (hpca mB.n_components ns nf M).1
  · obtain ⟨wp, -, hbody, -, -⟩ := fitG_ok ops mG XG rG hG
    obtain ⟨ns, nf, M, hcv⟩ := fitBodyG_component_values ops mG XG wp
    refine ⟨ns, nf, M, ?_, ?_, ?_⟩
    · rw [hbody]; exact hcv
    · exact sorted_desc_map_sq (hpca mG.n_components ns nf M).2.1
        (hpca mG.n_components ns nf M).2.2
    · rw [List.length_map]; exact (hpca mG.n_components ns nf M).1

/-- Claim C4 witness: the theorem applied to the demo fits, whose stored
eigenvalue lists evaluate to `[0, 0]`, sorted and of length two. -/
theorem c4_witness :
    demoPairB.1.component_values_ = Option.some [0, 0] ∧
      demoPairG.1.component_values_ = Option.some [0, 0] ∧
      (Option.getD demoPairB.1.component_values_ []).Sorted (· ≥ ·) ∧
      (Option.getD demoPairB.1.component_values_ []).length = mDemoB.n_components := by
  have h := c4_component_values_squared_sorted demoOps mDemoB xDemoB demoPairB
    mDemoG xDemoG demoPairG demoOps_contract rfl rfl
  obtain ⟨⟨ns, nf, M, hcv, hsorted, hlen⟩, -⟩ := h
  refine ⟨rfl, rfl, ?_, ?_⟩
  · rw [hcv, Option.getD_some]; exact hsorted
  · rw [hcv, Option.getD_some]; exact hlen

/-! ## Claim C8 -/

/-- Claim C8: with `centering=True`, a successful `fit` hands back the caller's
input object with the mean subtracted — `FPCABasis.fit` mutates
`X.coefficients` in place and `FPCAGrid.fit` mutates `X.data_matrix` through
the reshaped view, so after `fit` the caller's object holds the centered data
(here: the input state returned by the state-threading embedding is the
centered one). -/
theorem c8_fit_centers_input_in_place
    (ops : Ops) (mB : FPCABasis) (XB : FDataBasis) (rB : FPCABasis × FDataBasis)
    (mG : FPCAGrid) (XG : FDataGrid) (rG : FPCAGrid × FDataGrid)
    (hB : FPCABasis.fit ops mB XB = .ok rB) (hcB : mB.centering = true)
    (hG : FPCAGrid.fit ops mG XG = .ok rG) (hcG : mG.centering = true) :
    (∀ i j, rB.2.coefficients i j = XB.coefficients i j - basisMean XB j) ∧
      (∀ i j, rG.2.data_matrix i j = XG.data_matrix i j - gridMean XG j) := by
  constructor
  · intro i j
    obtain ⟨hbody, -⟩ := fitB_ok ops mB XB rB hB
    rw [hbody, fitBodyB_snd, hcB]
    simp
  · intro i j
    obtain ⟨wp, -, hbody, -, -⟩ := fitG_ok ops mG XG rG hG
    rw [hbody, fitBodyG_snd, hcG]
    simp

/-- Claim C8 witness: on the demo data the returned input object's first entry
is the original `1` minus the column mean `1/2`. -/
theorem c8_witness :
    demoPairB.2.coefficients 0 0 = xDemoB.coefficients 0 0 - basisMean xDemoB 0 ∧
      demoPairG.2.data_matrix 0 0 = xDemoG.data_matrix 0 0 - gridMean xDemoG 0 ∧
      demoPairB.2.coefficients 0 0 = 1 / 2 := by
  have h := c8_fit_centers_input_in_place demoOps mDemoB xDemoB demoPairB
    mDemoG xDemoG demoPairG rfl rfl rfl rfl
  refine ⟨h.1 0 0, h.2 0 0, ?_⟩
  rw [h.1 0 0]
  norm_num [xDemoB, basisMean, Finset.sum_range_succ]

/-! ## Claim C9 -/

lemma fitBodyB_components_basis_none (ops : Ops) (m : FPCABasis) (X : FDataBasis)
    (hm : m.components_basis = Option.none) :
    (FPCABasis.fitBody ops m X).1.components_basis = Option.some X.basis := by
  unfold FPCABasis.fitBody
  rw [hm]

lemma fitBodyB_components_basis_some (ops : Ops) (m : FPCABasis) (X : FDataBasis)
    (b : BasisObj) (hm : m.components_basis = Option.some b) :
    (FPCABasis.fitBody ops m X).1.components_basis =
      Option.some { b with domain_range := X.basis.domain_range } := by
  unfold FPCABasis.fitBody
  rw [hm]

lemma fitBodyB_components_some (ops : Ops) (m : FPCABasis) (X : FDataBasis)
    (b : BasisObj) (hm : m.components_basis = Option.some b) :
    ∃ cc, (FPCABasis.fitBody ops m X).1.components_ =
      Option.some { n_samples := m.n_components,
                    basis := { b with domain_range := X.basis.domain_range },
                    coefficients := cc } := by
  unfold FPCABasis.fitBody
  rw [hm]
  exact ⟨_, rfl⟩

/-- Claim C9: `FPCABasis.fit` overwrites its own configuration.  With no
supplied `components_basis` it stores (a copy of) the input's basis; with a
supplied basis it overwrites that basis object's `domain_range` with the
input's.  Consequently a second fit on data over a different basis uses the
basis resolved during the first fit (its identity and dimension; only its
domain range is forced to the second input's) as the target basis of the
stored components, not the new input's basis. -/
theorem c9_fit_overwrites_components_basis :
    (∀ (ops : Ops) (m : FPCABasis) (X : FDataBasis) (r : FPCABasis × FDataBasis),
        m.components_basis = Option.none → FPCABasis.fit ops m X = .ok r →
          r.1.components_basis = Option.some X.basis) ∧
    (∀ (ops : Ops) (m : FPCABasis) (b : BasisObj) (X : FDataBasis)
        (r : FPCABasis × FDataBasis),
        m.components_basis = Option.some b → FPCABasis.fit ops m X = .ok r →
          r.1.components_basis =
            Option.some { b with domain_range := X.basis.domain_range }) ∧
    (∀ (ops : Ops) (m : FPCABasis) (X1 X2 : FDataBasis)
        (r1 r2 : FPCABasis × FDataBasis) (c : FDataBasis),
        m.components_basis = Option.none →
        FPCABasis.fit ops m X1 = .ok r1 →
        FPCABasis.fit ops r1.1 X2 = .ok r2 →
        r2.1.components_ = Option.some c →
          c.basis = { X1.basis with domain_range := X2.basis.domain_range } ∧
            (X1.basis.kind ≠ X2.basis.kind → c.basis ≠ X2.basis)) := by
  refine ⟨?_, ?_, ?_⟩
  · intro ops m X r hm h
    obtain ⟨hbody, -⟩ := fitB_ok ops m X r h
    rw [hbody, fitBodyB_components_basis_none ops m X hm]
  · intro ops m b X r hm h
    obtain ⟨hbody, -⟩ := fitB_ok ops m X r h
    rw [hbody, fitBodyB_components_basis_some ops m X b hm]
  · intro ops m X1 X2 r1 r2 c hm h1 h2 hc
    obtain ⟨hbody1, -⟩ := fitB_ok ops m X1 r1 h1
    obtain ⟨hbody2, -⟩ := fitB_ok ops r1.1 X2 r2 h2
    have hcb1 : r1.1.components_basis = Option.some X1.basis := by
      rw [hbody1, fitBodyB_components_basis_none ops m X1 hm]
    obtain ⟨cc, hcomp⟩ := fitBodyB_components_some ops r1.1 X2 X1.basis hcb1
    rw [hbody2, hcomp] at hc
    have hcbasis : c.basis = { X1.basis with domain_range := X2.basis.domain_range } := by
      rw [← Option.some.inj hc]
    refine ⟨hcbasis, ?_⟩
    intro hkind heq
    apply hkind
    have : ({ X1.basis with domain_range := X2.basis.domain_range } : BasisObj).kind =
        X2.basis.kind := by rw [← hcbasis, heq]
    exact this
/-- Claim C9 witness: the demo model is fitted first on data over basis kind
`0`, then on data over basis kind `1`; the second fit's stored components
still live over the kind-`0` basis (with the second input's domain range). -/
theorem c9_witness :
    Option.map FDataBasis.basis demoPairB2.1.components_ =
      Option.some { kind := 0, n_basis := 2, domain_range := demoBasis2.domain_range } := by
  obtain ⟨-, -, h3⟩ := c9_fit_overwrites_components_basis
  have hcb1 : demoPairB.1.components_basis = Option.some xDemoB.basis := rfl
  obtain ⟨cc, hcomp⟩ := fitBodyB_components_some demoOps demoPairB.1 xDemoB2
    xDemoB.basis hcb1
  have hc : demoPairB2.1.components_ =
      Option.some { n_samples := demoPairB.1.n_components,
                    basis := { xDemoB.basis with
                      domain_range := xDemoB2.basis.domain_range },
                    coefficients := cc } := hcomp
  have h := h3 demoOps mDemoB xDemoB xDemoB2 demoPairB demoPairB2 _ rfl rfl rfl hc
  rw [hc]
  simp only [Option.map_some']
  exact congrArg Option.some h.1

/-! ## Claim C2 -/

lemma fitBodyG_components (ops : Ops) (m : FPCAGrid) (X : FDataGrid)
    (wp : List ℚ × Weights) :
    ∃ cd, (FPCAGrid.fitBody ops m X wp).1.components_ =
      Option.some { n_samples := m.n_components
                    n_points := X.n_points
                    sample_points := X.sample_points
                    data_matrix := cd } :=
  ⟨_, rfl⟩

/-- Claim C2: after a successful `FPCAGrid.fit`, `transform X` succeeds and
returns (wrapped in a fresh `FDataGrid`) the `N × n_components` matrix whose
`(i, j)` entry is the plain discrete dot product of sample `i` of `X` with
stored component `j` — no re-centering and no weighting enter the product. -/
theorem c2_grid_transform_scores
    (ops : Ops) (m0 : FPCAGrid) (X0 : FDataGrid) (r : FPCAGrid × FDataGrid)
    (X : FDataGrid)
    (hfit : FPCAGrid.fit ops m0 X0 = .ok r)
    (hgrid : X.n_points = X0.n_points) :
    ∃ c g, r.1.components_ = Option.some c ∧
      FPCAGrid.transform r.1 X = .ok (g, r.1) ∧
      g.n_samples = X.n_samples ∧
      g.n_points = m0.n_components ∧
      (∀ i j, g.data_matrix i j =
        ∑ t ∈ Finset.range X.n_points, X.data_matrix i t * c.data_matrix j t) := by
  obtain ⟨wp, -, hbody, -, -⟩ := fitG_ok ops m0 X0 r hfit
  obtain ⟨cd, hcomp⟩ := fitBodyG_components ops m0 X0 wp
  rw [hbody]
  refine ⟨{ n_samples := m0.n_components
            n_points := X0.n_points
            sample_points := X0.sample_points
            data_matrix := cd },
          { n_samples := X.n_samples
            n_points := m0.n_components
            sample_points := (List.range m0.n_components).map (fun k => (k : ℚ))
            data_matrix := fun i j =>
              ∑ t ∈ Finset.range X.n_points, X.data_matrix i t * cd j t },
          hcomp, ?_, rfl, rfl, fun i j => rfl⟩
  unfold FPCAGrid.transform
  rw [hcomp]

/-- Claim C2 witness: the theorem applied to the demo grid fit; the returned
score object has two samples (rows) and two score columns. -/
theorem c2_witness :
    (match FPCAGrid.transform demoPairG.1 xDemoG with
      | .ok p => p.1.n_samples
      | .error _ => 0) = xDemoG.n_samples ∧
    (match FPCAGrid.transform demoPairG.1 xDemoG with
      | .ok p => p.1.n_points
      | .error _ => 0) = mDemoG.n_components := by
  obtain ⟨c, g, hc, htr, hns, hnp, -⟩ :=
    c2_grid_transform_scores demoOps mDemoG xDemoG demoPairG xDemoG rfl rfl
  rw [htr]
  exact ⟨hns, hnp⟩

/-! ## Claim C7 -/

/-- Claim C7: `transform` leaves the fitted model unchanged (the source
assigns no attribute in either `transform`), and a second call with the model
returned by the first yields the identical output — for both estimators. -/
theorem c7_transform_pure
    (ops : Ops) (mB : FPCABasis) (cB : FDataBasis) (XB : FDataBasis)
    (mG : FPCAGrid) (cG : FDataGrid) (XG : FDataGrid)
    (hB : mB.components_ = Option.some cB) (hG : mG.components_ = Option.some cG) :
    (∀ out mB2, FPCABasis.transform ops mB XB = .ok (out, mB2) →
        mB2 = mB ∧ FPCABasis.transform ops mB2 XB = .ok (out, mB2)) ∧
    (∀ out mG2, FPCAGrid.transform mG XG = .ok (out, mG2) →
        mG2 = mG ∧ FPCAGrid.transform mG2 XG = .ok (out, mG2)) := by
  constructor
  · intro out mB2 h
    unfold FPCABasis.transform at h ⊢
    rw [hB] at h
    simp only [Except.ok.injEq, Prod.mk.injEq] at h
    obtain ⟨hout, hm⟩ := h
    refine ⟨hm.symm, ?_⟩
    rw [← hm, hB, ← hout]
  · intro out mG2 h
    unfold FPCAGrid.transform at h ⊢
    rw [hG] at h
    simp only [Except.ok.injEq, Prod.mk.injEq] at h
    obtain ⟨hout, hm⟩ := h
    refine ⟨hm.symm, ?_⟩
    rw [← hm, hG, ← hout]

/-- The outcome of transforming the demo data with the fitted demo basis model
(the fallback branch is unreachable). -/
def demoScoreB : (ℕ → ℕ → ℚ) × FPCABasis :=
  match FPCABasis.transform demoOps demoPairB.1 xDemoB with
  | .ok p => p
  | .error _ => (fun _ _ => 0, demoPairB.1)

/-- The outcome of transforming the demo data with the fitted demo grid model
(the fallback branch is unreachable). -/
def demoScoreG : FDataGrid × FPCAGrid :=
  match FPCAGrid.transform demoPairG.1 xDemoG with
  | .ok p => p
  | .error _ => (xDemoG, demoPairG.1)

/-- Claim C7 witness: on the demo fits, the model returned by `transform` is
the fitted model itself, and re-running `transform` on it reproduces the same
output. -/
theorem c7_witness :
    demoScoreB.2 = demoPairB.1 ∧
      FPCABasis.transform demoOps demoScoreB.2 xDemoB = .ok (demoScoreB.1, demoScoreB.2) ∧
      demoScoreG.2 = demoPairG.1 ∧
      FPCAGrid.transform demoScoreG.2 xDemoG = .ok (demoScoreG.1, demoScoreG.2) := by
  have h := c7_transform_pure demoOps demoPairB.1 _ xDemoB demoPairG.1 _ xDemoG rfl rfl
  obtain ⟨h1, h2⟩ := h
  have hb := h1 demoScoreB.1 demoScoreB.2 rfl
  have hg := h2 demoScoreG.1 demoScoreG.2 rfl
  exact ⟨hb.1, hb.2, hg.1, hg.2⟩

/-! ## Claim C5 -/

def mDemoGNeg : FPCAGrid := { mDemoG with weights := Weights.pyList [1, -1] }

/-- Claim C5 (evidence for the code bug): `FPCAGrid.fit` performs no sign
validation of the resolved weights.  With the caller-supplied weight list
`[1, -1]` — resolved unchanged, containing the negative entry `-1` — the fit
does not raise the spec's `InvalidWeightError`; it completes, letting the
square root of the negative weight proceed (NaN in the numpy execution). -/
theorem c5_negative_weights_not_rejected :
    resolveWeights (Weights.pyList [1, -1]) xDemoG.sample_points =
        .ok ([1, -1], Weights.pyList [1, -1]) ∧
      (-1 : ℚ) < 0 ∧
      (FPCAGrid.fit demoOps mDemoGNeg xDemoG).isOk = true ∧
      FPCAGrid.fit demoOps mDemoGNeg xDemoG ≠ .error .invalidWeight := by
  refine ⟨rfl, by norm_num, rfl, ?_⟩
  intro h
  have h2 : (FPCAGrid.fit demoOps mDemoGNeg xDemoG).isOk = true := rfl
  rw [h] at h2
  simp [Except.isOk, Except.toBool] at h2

/-! ## Claim C10 -/

/-- Claim C10: the default-weight branch is selected by the Python truth-value
test `not self.weights`.  A numpy-array weight vector of more than one element
makes this test raise the ambiguous-truth-value `ValueError` — the fit aborts
there, before any weight is used — and any falsy weights value (None, empty
list, empty array, a one-element zero array) is silently replaced by the
default trapezoidal weights. -/
theorem c10_weights_truthiness
    (ops : Ops) (m : FPCAGrid) (X : FDataGrid) (l : List ℚ)
    (hw : m.weights = Weights.npArray l) (hlen : 1 < l.length)
    (h1 : m.n_components ≤ X.n_samples) (h2 : m.n_components ≤ X.n_points) :
    FPCAGrid.fit ops m X = .error .ambiguousTruthValue ∧
      ∀ (w : Weights) (pts : List ℚ), weightsTruthy w = .ok false →
        resolveWeights w pts =
          .ok (trapezoidWeights pts, Weights.npArray (trapezoidWeights pts)) := by
  constructor
  · have ht : weightsTruthy (Weights.npArray l) = .error .ambiguousTruthValue := by
      rcases l with - | ⟨a, l2⟩
      · simp at hlen
      · show (if 1 < (a :: l2).length then (Except.error FPCAError.ambiguousTruthValue)
            else Except.ok (decide (a ≠ 0))) = Except.error FPCAError.ambiguousTruthValue
        exact if_pos hlen
    have hrw : resolveWeights m.weights X.sample_points =
        .error .ambiguousTruthValue := by
      rw [hw]
      unfold resolveWeights
      rw [ht]
    simp only [FPCAGrid.fit]
    rw [if_neg (by omega), if_neg (by omega), hrw]
  · intro w pts hfalsy
    unfold resolveWeights
    rw [hfalsy]

def mDemoGArr : FPCAGrid := { mDemoG with weights := Weights.npArray [1, 1] }

/-- Claim C10 witness: supplying the two-element numpy array `[1, 1]` (the
spec's scenario of explicit uniform weights) makes `fit` raise the
ambiguous-truth-value error, and the falsy empty list is replaced by the
trapezoidal default `[0.5, 0.5]` on the grid `[0, 1]`. -/
theorem c10_witness :
    FPCAGrid.fit demoOps mDemoGArr xDemoG = .error .ambiguousTruthValue ∧
      resolveWeights (Weights.pyList []) [(0 : ℚ), 1] =
        .ok ([1 / 2, 1 / 2], Weights.npArray [1 / 2, 1 / 2]) := by
  have h := c10_weights_truthiness demoOps mDemoGArr xDemoG [1, 1] rfl
    (by norm_num) (by decide) (by decide)
  refine ⟨h.1, ?_⟩
  have h2 := h.2 (Weights.pyList []) [(0 : ℚ), 1] rfl
  have ht : trapezoidWeights [(0 : ℚ), 1] = [1 / 2, 1 / 2] := by
    norm_num [trapezoidWeights]
  rw [ht] at h2
  exact h2

/-! ## Claim C6 -/

/-- The spacing sequence of the claim (written from the spec's words for C6):
`Δ₀ = Δ_P = 0` at the boundaries and `Δₖ = ptsₖ - ptsₖ₋₁` for
`1 ≤ k ≤ P - 1` (0-based sample points). -/
def deltaSpec (pts : List ℚ) (k : ℕ) : ℚ :=
  if k = 0 ∨ pts.length ≤ k then 0 else pts.getD k 0 - pts.getD (k - 1) 0

lemma trapezoid_d_entry (pts : List ℚ) (k : ℕ) :
    ((0 : ℚ) :: List.zipWith (fun a b => a - b) pts.tail pts ++ [(0 : ℚ)]).getD k 0 =
      deltaSpec pts k := by
  have hzl : (List.zipWith (fun a b : ℚ => a - b) pts.tail pts).length = pts.length - 1 := by
    simp [List.length_zipWith]
  rw [List.cons_append]
  cases k with
  | zero => simp [deltaSpec]
  | succ k =>
      rw [List.getD_cons_succ]
      by_cases hk : k < pts.length - 1
      · rw [List.getD_append _ _ _ _ (by omega)]
        rw [List.getD_eq_getElem _ _ (by omega), List.getElem_zipWith]
        rw [List.getElem_tail]
        rw [deltaSpec, if_neg (by omega)]
        rw [List.getD_eq_getElem pts 0 (show k + 1 < pts.length by omega)]
        have hsub : k + 1 - 1 = k := by omega
        rw [hsub, List.getD_eq_getElem pts 0 (show k < pts.length by omega)]
      · rw [List.getD_append_right _ _ _ _ (by omega)]
        have hdz : deltaSpec pts (k + 1) = 0 := by
          rw [deltaSpec, if_pos (by omega)]
        rw [hdz, hzl]
        generalize k - (pts.length - 1) = m
        cases m with
        | zero => rfl
        | succ m => rfl

lemma trapezoidWeights_length (pts : List ℚ) (hne : 1 ≤ pts.length) :
    (trapezoidWeights pts).length = pts.length := by
  unfold trapezoidWeights
  simp [List.length_zipWith]
  omega

lemma trapezoidWeights_getD (pts : List ℚ) (hne : 1 ≤ pts.length) (k : ℕ)
    (hk : k < pts.length) :
    (trapezoidWeights pts).getD k 0 = (deltaSpec pts k + deltaSpec pts (k + 1)) / 2 := by
  unfold trapezoidWeights
  set d := (0 : ℚ) :: List.zipWith (fun a b => a - b) pts.tail pts ++ [(0 : ℚ)] with hd
  have hdl : d.length = pts.length + 1 := by
    rw [hd, List.cons_append]
    simp [List.length_zipWith]
    omega
  have h1 : k < (List.zipWith (fun a b => (a + b) / 2) d.dropLast d.tail).length := by
    simp [List.length_zipWith, List.length_dropLast, List.length_tail]
    omega
  rw [List.getD_eq_getElem _ _ h1, List.getElem_zipWith]
  rw [List.getElem_dropLast, List.getElem_tail]
  rw [← List.getD_eq_getElem d 0 (show k < d.length by omega),
    ← List.getD_eq_getElem d 0 (show k + 1 < d.length by omega)]
  rw [hd, trapezoid_d_entry pts k, trapezoid_d_entry pts (k + 1)]

/-- Claim C6: with no caller-supplied weights, `FPCAGrid.fit` resolves the
weights to the composite-trapezoidal vector `wₖ = (Δₖ₋₁ + Δₖ)/2` with
`Δ₀ = Δ_P = 0` at the boundaries (indexing the entry `wₖ` 0-based as
`(Δₖ + Δₖ₊₁)/2`); on the two-point grid `[0, 1]` the default weights are
exactly `[0.5, 0.5]`. -/
theorem c6_default_trapezoidal_weights (pts : List ℚ)
    (hne : 1 ≤ pts.length) (hsorted : pts.Sorted (· < ·)) :
    resolveWeights Weights.none pts =
        .ok (trapezoidWeights pts, Weights.npArray (trapezoidWeights pts)) ∧
      (trapezoidWeights pts).length = pts.length ∧
      (∀ k, k < pts.length →
        (trapezoidWeights pts).getD k 0 = (deltaSpec pts k + deltaSpec pts (k + 1)) / 2) ∧
      trapezoidWeights [(0 : ℚ), 1] = [1 / 2, 1 / 2] :=
  ⟨rfl, trapezoidWeights_length pts hne, fun k hk => trapezoidWeights_getD pts hne k hk,
    by norm_num [trapezoidWeights]⟩

/-- Claim C6 witness: the theorem applied on the two-point grid `[0, 1]`. -/
theorem c6_witness :
    resolveWeights Weights.none [(0 : ℚ), 1] =
      .ok ([1 / 2, 1 / 2], Weights.npArray [1 / 2, 1 / 2]) := by
  have h := c6_default_trapezoidal_weights [(0 : ℚ), 1] (by norm_num) (by decide)
  have h1 := h.1
  rw [h.2.2.2] at h1
  exact h1
